import Mathlib

/-!
Verification of the conversation context-resolution and provider-routing
pipeline of the Friday_Ai backend.

Shallow embedding of the Python sources:
  backend/core/history_manager.py   (HistoryManager)
  backend/core/memory.py            (MemoryManager)
  backend/core/conversation_store.py (ConversationStore)
  backend/core/model_router.py      (ModelRouter)
  backend/core/context_resolver.py  (ContextResolver)
  backend/core/chatgpt_context.py   (build_chatgpt_style_messages and helpers)
  backend/core/auto_tool_caller.py  (AutoToolCaller)
  backend/api/chat.py               (stream_generator event skeleton)

Python strings are modelled as Lean `String` (a list of unicode code points,
matching Python's `len`/indexing on `str`).  `str.lower()` is modelled as
ASCII lowercasing (the lexicons and inputs involved are ASCII; Devanagari has
no case).  Regular expressions from the source are compiled by hand into
equivalent executable scanners; each scanner documents the regex it embeds.
All definitions are structural recursions so that concrete instances reduce
inside the kernel (`decide`/`rfl`).
-/

/-! Section: Basic character/string helpers (Python `str` semantics) -/

/-- ASCII uppercase test, the regex class `[A-Z]`. -/
def isUpperAZ (c : Char) : Bool := 'A' ≤ c && c ≤ 'Z'

/-- ASCII lowercase test, the regex class `[a-z]`. -/
def isLowerAZ (c : Char) : Bool := 'a' ≤ c && c ≤ 'z'

/-- ASCII digit test. -/
def isDigitB (c : Char) : Bool := '0' ≤ c && c ≤ '9'

/-- Whitespace as used by Python `str.split()` / `str.strip()` and the regex
class `\s` (ASCII part). -/
def isSpaceB (c : Char) : Bool :=
  c = ' ' || c = '\t' || c = '\n' || c = '\r' || c = '\x0b' || c = '\x0c'

/-- The regex class `\w`, restricted to ASCII (all inputs whose word
boundaries matter in the claims are ASCII). -/
def isWordCharB (c : Char) : Bool := isUpperAZ c || isLowerAZ c || isDigitB c || c = '_'

/-- ASCII lowercasing of one character (Python `str.lower()` on ASCII). -/
def toLowerA (c : Char) : Char :=
  if isUpperAZ c then Char.ofNat (c.toNat + 32) else c

/-- ASCII uppercasing of one character (Python `str.upper()` on ASCII). -/
def toUpperA (c : Char) : Char :=
  if isLowerAZ c then Char.ofNat (c.toNat - 32) else c

/-- Python `s.lower()` (ASCII part). -/
def strLower (s : String) : String := ⟨s.data.map toLowerA⟩

/-- Tests whether `needle` is a prefix of `hay` (list form). -/
def isPrefixB : List Char → List Char → Bool
  | [], _ => true
  | _ :: _, [] => false
  | a :: as, b :: bs => a = b && isPrefixB as bs

/-- Tests whether `hay` contains `needle` as a contiguous substring (list form);
Python's `needle in hay`. -/
def containsSubL (hay needle : List Char) : Bool :=
  match hay with
  | [] => needle.isEmpty
  | _ :: rest => isPrefixB needle hay || containsSubL rest needle

/-- Python `needle in hay` on strings. -/
def strContainsBool (hay needle : String) : Bool := containsSubL hay.data needle.data

/-- Python `s.strip()` (whitespace both ends). -/
def stripL (l : List Char) : List Char :=
  ((l.dropWhile isSpaceB).reverse.dropWhile isSpaceB).reverse

def pyStrip (s : String) : String := ⟨stripL s.data⟩

/-- Python `s.rstrip('?')`. -/
def rstripQmarks (s : String) : String :=
  ⟨(s.data.reverse.dropWhile (fun c => c = '?')).reverse⟩

/-- Python `s.split()` (split on whitespace runs, dropping empties);
accumulator keeps the recursion structural. -/
def wordsAcc (cur : List Char) : List Char → List (List Char)
  | [] => if cur.isEmpty then [] else [cur.reverse]
  | c :: rest =>
    if isSpaceB c then
      if cur.isEmpty then wordsAcc [] rest else cur.reverse :: wordsAcc [] rest
    else wordsAcc (c :: cur) rest

def pySplit (s : String) : List String := (wordsAcc [] s.data).map (fun l => ⟨l⟩)

/-- Python `s.startswith(p)`. -/
def startsWithB (s p : String) : Bool := isPrefixB p.data s.data

/-- Text before the first occurrence of `sep` (whole input when absent):
Python `s.split(sep)[0]`. -/
def upToFirstL (sep : List Char) : List Char → List Char
  | [] => []
  | c :: rest => if isPrefixB sep (c :: rest) then [] else c :: upToFirstL sep rest

/-- Text after the first occurrence of `sep` (empty when absent). -/
def afterFirstL (sep : List Char) : List Char → List Char
  | [] => []
  | c :: rest => if isPrefixB sep (c :: rest) then (c :: rest).drop sep.length
                 else afterFirstL sep rest

/-- Python `s.split(sep)[1]`: the text between the first and second
occurrence of `sep` (everything after the first when it occurs once). -/
def seg1 (sep s : String) : String := ⟨upToFirstL sep.data (afterFirstL sep.data s.data)⟩

def upToFirst (sep s : String) : String := ⟨upToFirstL sep.data s.data⟩

/-- Python `s.replace(pat, rep)` (all non-overlapping occurrences, left to
right).  `skip` counts characters of an already-matched occurrence still to
be consumed, keeping the recursion structural. -/
def replaceSkip (pat rep : List Char) (skip : Nat) : List Char → List Char
  | [] => []
  | c :: rest =>
    match skip with
    | n + 1 => replaceSkip pat rep n rest
    | 0 =>
      if isPrefixB pat (c :: rest) then rep ++ replaceSkip pat rep (pat.length - 1) rest
      else c :: replaceSkip pat rep 0 rest

def strReplace (s pat rep : String) : String :=
  match pat.data with
  | [] => s
  | _ :: _ => ⟨replaceSkip pat.data rep.data 0 s.data⟩

/-- Python `str.title()` (ASCII part): first letter of each alphabetic run
uppercased, the rest lowercased. -/
def titleAux (prevAlpha : Bool) : List Char → List Char
  | [] => []
  | c :: rest =>
    let alpha := isUpperAZ c || isLowerAZ c
    (if alpha then (if prevAlpha then toLowerA c else toUpperA c) else c)
      :: titleAux alpha rest

def pyTitle (s : String) : String := ⟨titleAux false s.data⟩

/-- Python `s.count('?')`. -/
def countQmarks (s : String) : Nat := s.data.count '?'

/-! Section: history_manager.py — HistoryManager (claim C3) -/

/-- One message as the `List[Dict[str, str]]` histories carry it:
`{"role": ..., "content": ...}`. -/
structure ChatMsg where
  role : String
  content : String
deriving DecidableEq, Repr

/-- Embeds `HistoryManager.PROVIDER_LIMITS` with the `.get(provider, 6000)` default. -/
def providerTokenLimit (provider : String) : Int :=
  if provider = "groq" then 6000
  else if provider = "gemini" then 24000
  else if provider = "openai" then 14000
  else if provider = "claude" then 90000
  else 6000

/-- Embeds `HistoryManager.MAX_MESSAGES` with the `.get(provider, 15)` default. -/
def maxMessagesFor (provider : String) : Nat :=
  if provider = "groq" then 15
  else if provider = "gemini" then 30
  else if provider = "openai" then 20
  else if provider = "claude" then 40
  else 15

/-- Embeds `HistoryManager.estimate_tokens`: `len(text) // 2` when any character is
non-ASCII, else `len(text) // 4`. -/
def estimateTokens (text : String) : Nat :=
  if text.data.any (fun c => 127 < c.toNat) then text.length / 2
  else text.length / 4

/-- Embeds `HistoryManager.calculate_message_tokens`: content estimate plus 4 per
message. -/
def calcMessageTokens (messages : List ChatMsg) : Nat :=
  messages.foldl (fun acc m => acc + estimateTokens m.content + 4) 0

/-- The `while history_tokens > available_tokens and len(truncated) > 4`
loop of `HistoryManager.truncate_history`: drop the oldest message and
recompute until under budget or only 4 remain. -/
def truncLoop (available : Int) : List ChatMsg → List ChatMsg
  | [] => []
  | m :: rest =>
    if available < (calcMessageTokens (m :: rest) : Int) ∧ 4 < (m :: rest).length
    then truncLoop available rest
    else m :: rest

/-- Embeds `HistoryManager.truncate_history`.  `history[-max_messages:]` is
`List.drop (length - max_messages)`; `available_tokens` is
`token_limit - system_prompt_tokens - current_message_tokens - 200`. -/
def truncateHistory (history : List ChatMsg) (provider : String)
    (systemPromptTokens currentMessageTokens : Nat) : List ChatMsg :=
  let tokenLimit := providerTokenLimit provider
  let available : Int := tokenLimit - systemPromptTokens - currentMessageTokens - 200
  truncLoop available (history.drop (history.length - maxMessagesFor provider))

/-- Embeds `HistoryManager.get_safe_history`: estimates the prompt/message tokens
and delegates to `truncate_history`. -/
def getSafeHistory (history : List ChatMsg) (provider systemPrompt currentMessage : String) :
    List ChatMsg :=
  truncateHistory history provider (estimateTokens systemPrompt) (estimateTokens currentMessage)

theorem truncLoop_suffix (available : Int) (msgs : List ChatMsg) :
    ∃ pre, msgs = pre ++ truncLoop available msgs := by
  induction msgs with
  | nil => exact ⟨[], rfl⟩
  | cons m rest ih =>
    by_cases h : available < (calcMessageTokens (m :: rest) : Int) ∧ 4 < (m :: rest).length
    · obtain ⟨pre, hp⟩ := ih
      refine ⟨m :: pre, ?_⟩
      have hstep : truncLoop available (m :: rest) = truncLoop available rest := by
        simp only [truncLoop]
        rw [if_pos h]
      rw [hstep, List.cons_append, ← hp]
    · refine ⟨[], ?_⟩
      have hstep : truncLoop available (m :: rest) = m :: rest := by
        simp only [truncLoop]
        rw [if_neg h]
      rw [hstep, List.nil_append]

theorem truncLoop_min_length (available : Int) (msgs : List ChatMsg) :
    min 4 msgs.length ≤ (truncLoop available msgs).length := by
  induction msgs with
  | nil => simp [truncLoop]
  | cons m rest ih =>
    by_cases h : available < (calcMessageTokens (m :: rest) : Int) ∧ 4 < (m :: rest).length
    · have h4 : 4 < (m :: rest).length := h.2
      have hstep : truncLoop available (m :: rest) = truncLoop available rest := by
        simp only [truncLoop]
        rw [if_pos h]
      rw [hstep]
      simp only [List.length_cons] at h4 ⊢
      omega
    · have hstep : truncLoop available (m :: rest) = m :: rest := by
        simp only [truncLoop]
        rw [if_neg h]
      rw [hstep]
      simp only [List.length_cons]
      omega

theorem truncLoop_length_le (available : Int) (msgs : List ChatMsg) :
    (truncLoop available msgs).length ≤ msgs.length := by
  obtain ⟨pre, hp⟩ := truncLoop_suffix available msgs
  have hlen := congrArg List.length hp
  rw [List.length_append] at hlen
  omega

theorem maxMessagesFor_ge_four (provider : String) : 4 ≤ maxMessagesFor provider := by
  unfold maxMessagesFor
  repeat' split
  all_goals omega

/-- Claim C3: `truncate_history` returns a contiguous suffix of the input
history, of length at most the provider's `MAX_MESSAGES` entry and at least
`min 4 (length of the input)`: messages are only dropped from the oldest
end.  (`get_safe_history` delegates to `truncate_history` with estimated
token counts, so the bound transfers to it.) -/
theorem truncate_history_bounds (history : List ChatMsg) (provider : String)
    (systemPromptTokens currentMessageTokens : Nat) :
    (∃ pre, history = pre ++ truncateHistory history provider systemPromptTokens currentMessageTokens) ∧
    (truncateHistory history provider systemPromptTokens currentMessageTokens).length ≤
      maxMessagesFor provider ∧
    min 4 history.length ≤
      (truncateHistory history provider systemPromptTokens currentMessageTokens).length := by
  have hTH : truncateHistory history provider systemPromptTokens currentMessageTokens =
      truncLoop (providerTokenLimit provider - systemPromptTokens - currentMessageTokens - 200)
        (history.drop (history.length - maxMessagesFor provider)) := rfl
  rw [hTH]
  set available : Int :=
    providerTokenLimit provider - systemPromptTokens - currentMessageTokens - 200 with havail
  set d := history.drop (history.length - maxMessagesFor provider) with hd
  have hdlen : d.length = history.length - (history.length - maxMessagesFor provider) := by
    rw [hd, List.length_drop]
  refine ⟨?_, ?_, ?_⟩
  · obtain ⟨pre, hp⟩ := truncLoop_suffix available d
    refine ⟨history.take (history.length - maxMessagesFor provider) ++ pre, ?_⟩
    rw [List.append_assoc, ← hp, hd, List.take_append_drop]
  · have h1 := truncLoop_length_le available d
    have h2 : d.length ≤ maxMessagesFor provider := by
      rw [hdlen]; omega
    omega
  · have h1 := truncLoop_min_length available d
    have h4 := maxMessagesFor_ge_four provider
    rw [hdlen] at h1
    omega

/-! Section: memory.py — MemoryManager conversation store (claims C2, C9, C10)

`models/schemas.py` `Message` and `Conversation` (pydantic models), with
`datetime` timestamps abstracted to `Nat` and tool-call records to string
pairs.  The `MemoryManager.conversations` dict is an association list with
unique keys; disk/Firestore persistence mirrors the in-memory dict and is
not modelled separately. -/

structure Message where
  role : String
  content : String
  tool_calls : Option (List (String × String))
  timestamp : Nat
deriving DecidableEq, Repr

structure Conversation where
  id : String
  name : Option String
  project_id : Option String
  messages : List Message
  created_at : Nat
  updated_at : Nat
deriving DecidableEq, Repr

/-- The `MemoryManager.conversations` dictionary. -/
abbrev Store := List (String × Conversation)

/-- Dict lookup `self.conversations.get(conversation_id)`. -/
def lookupConv : Store → String → Option Conversation
  | [], _ => none
  | (k, c) :: rest, cid => if k = cid then some c else lookupConv rest cid

/-- Dict item update `self.conversations[conversation_id] = ...` for a key
already present (keys are unique, first binding wins). -/
def updateConv : Store → String → (Conversation → Conversation) → Store
  | [], _, _ => []
  | (k, c) :: rest, cid, f =>
    if k = cid then (k, f c) :: rest else (k, c) :: updateConv rest cid f

/-- Embeds `MemoryManager.add_message`: raises
`ValueError(f"Conversation {conversation_id} not found")` when the id is not
in the dict (modelled as `Except.error`, leaving no state behind);
otherwise appends the new `Message` and bumps `updated_at`.
`datetime.now()` is the `now` parameter. -/
def addMessageM (s : Store) (cid role content : String)
    (toolCalls : Option (List (String × String))) (now : Nat) : Except String Store :=
  match lookupConv s cid with
  | none => .error ("Conversation " ++ cid ++ " not found")
  | some _ => .ok (updateConv s cid (fun c =>
      { c with messages := c.messages ++ [⟨role, content, toolCalls, now⟩],
               updated_at := now }))

/-- Embeds `MemoryManager.rename_conversation`: `False` (state unchanged) for an
unknown id; otherwise sets `name` and `updated_at`. -/
def renameConversationM (s : Store) (cid newName : String) (now : Nat) : Store :=
  match lookupConv s cid with
  | none => s
  | some _ => updateConv s cid (fun c => { c with name := some newName, updated_at := now })

/-- Embeds `MemoryManager.get_conversation_history`: `[]` for an unknown id; for a
known one, `messages[-limit:]` when `limit` is truthy (not `None` and not
`0`), the full list otherwise. -/
def getConversationHistoryM (s : Store) (cid : String) (limit : Option Nat) : List Message :=
  match lookupConv s cid with
  | none => []
  | some conv =>
    match limit with
    | none => conv.messages
    | some l => if l = 0 then conv.messages
                else conv.messages.drop (conv.messages.length - l)

/-- The store operations claim C9 ranges over, with `datetime.now()` values
supplied as `Nat` arguments.  `list_conversations` and
`get_conversation_history` read without mutating; `get_or_create_conversation`
on a present id returns it unchanged (on an absent id the source dereferences
the non-existent attribute `self.storage` and raises `AttributeError` before
mutating anything, so the state is also unchanged). -/
inductive StoreOp where
  | addMsg (cid role content : String) (toolCalls : Option (List (String × String))) (now : Nat)
  | renameConv (cid newName : String) (now : Nat)
  | listConvs (projectId : Option String) (limit : Nat)
  | historyQuery (cid : String) (limit : Option Nat)
  | getOrCreate (cid : String) (now : Nat)

def applyOp (s : Store) : StoreOp → Store
  | .addMsg cid role content tc now =>
    match addMessageM s cid role content tc now with
    | .ok s' => s'
    | .error _ => s
  | .renameConv cid newName now => renameConversationM s cid newName now
  | .listConvs _ _ => s
  | .historyQuery _ _ => s
  | .getOrCreate _ _ => s

def applyOps (s : Store) (ops : List StoreOp) : Store := ops.foldl applyOp s

/-! Section: conversation_store.py — ConversationStore (claim C2 counterexample)

`ConversationStore.conversations : Dict[str, List[Dict]]`, messages as
role/content/timestamp dicts. -/

structure CMsg where
  role : String
  content : String
  timestamp : Nat
deriving DecidableEq, Repr

abbrev CStore := List (String × List CMsg)

def csLookup : CStore → String → Option (List CMsg)
  | [], _ => none
  | (k, m) :: rest, cid => if k = cid then some m else csLookup rest cid

def csUpdate : CStore → String → List CMsg → CStore
  | [], _, _ => []
  | (k, m) :: rest, cid, msgs =>
    if k = cid then (k, msgs) :: rest else (k, m) :: csUpdate rest cid msgs

/-- Embeds `ConversationStore.add_message`: when the id is absent it first runs
`self.conversations[conversation_id] = []` and then appends — it silently
creates the conversation instead of failing. -/
def csAddMessage (s : CStore) (cid role content : String) (now : Nat) : CStore :=
  match csLookup s cid with
  | none => s ++ [(cid, [⟨role, content, now⟩])]
  | some msgs => csUpdate s cid (msgs ++ [⟨role, content, now⟩])

theorem lookupConv_updateConv_self (s : Store) (cid : String) (f : Conversation → Conversation) :
    lookupConv (updateConv s cid f) cid = (lookupConv s cid).map f := by
  induction s with
  | nil => rfl
  | cons p rest ih =>
    obtain ⟨k, c⟩ := p
    by_cases hk : k = cid
    · simp [updateConv, lookupConv, hk]
    · simp [updateConv, lookupConv, hk, ih]

theorem lookupConv_updateConv_ne (s : Store) (cid q : String) (f : Conversation → Conversation)
    (h : q ≠ cid) :
    lookupConv (updateConv s cid f) q = lookupConv s q := by
  induction s with
  | nil => rfl
  | cons p rest ih =>
    obtain ⟨k, c⟩ := p
    by_cases hk : k = cid
    · subst hk
      have hkq : ¬(k = q) := fun hq => h (hq ▸ rfl)
      simp [updateConv, lookupConv, hkq]
    · by_cases hq : k = q
      · subst hq
        simp [updateConv, lookupConv, hk]
      · simp [updateConv, lookupConv, hk, hq, ih]

/-- One store operation can only extend a stored conversation's turn list at
the end; id, project link and creation time never change. -/
theorem applyOp_extends (op : StoreOp) (s : Store) (q : String) (c : Conversation)
    (h : lookupConv s q = some c) :
    ∃ c', lookupConv (applyOp s op) q = some c' ∧
      (∃ t, c'.messages = c.messages ++ t) ∧
      c'.id = c.id ∧ c'.project_id = c.project_id ∧ c'.created_at = c.created_at := by
  have hrefl : ∃ c', lookupConv s q = some c' ∧
      (∃ t, c'.messages = c.messages ++ t) ∧
      c'.id = c.id ∧ c'.project_id = c.project_id ∧ c'.created_at = c.created_at :=
    ⟨c, h, ⟨[], by simp⟩, rfl, rfl, rfl⟩
  cases op with
  | addMsg cid role content tc now =>
    cases hl : lookupConv s cid with
    | none =>
      have hstep : applyOp s (.addMsg cid role content tc now) = s := by
        simp only [applyOp, addMessageM, hl]
      rw [hstep]
      exact hrefl
    | some c0 =>
      have hstep : applyOp s (.addMsg cid role content tc now) =
          updateConv s cid (fun c =>
            { c with messages := c.messages ++ [⟨role, content, tc, now⟩],
                     updated_at := now }) := by
        simp only [applyOp, addMessageM, hl]
      rw [hstep]
      by_cases hq : q = cid
      · subst hq
        rw [hl] at h
        have hc : c0 = c := by injection h
        subst hc
        refine ⟨{ c0 with messages := c0.messages ++ [⟨role, content, tc, now⟩],
                          updated_at := now }, ?_,
                ⟨[⟨role, content, tc, now⟩], rfl⟩, rfl, rfl, rfl⟩
        rw [lookupConv_updateConv_self, hl]
        rfl
      · rw [lookupConv_updateConv_ne s cid q _ hq]
        exact hrefl
  | renameConv cid newName now =>
    cases hl : lookupConv s cid with
    | none =>
      have hstep : applyOp s (.renameConv cid newName now) = s := by
        simp only [applyOp, renameConversationM, hl]
      rw [hstep]
      exact hrefl
    | some c0 =>
      have hstep : applyOp s (.renameConv cid newName now) =
          updateConv s cid (fun c => { c with name := some newName, updated_at := now }) := by
        simp only [applyOp, renameConversationM, hl]
      rw [hstep]
      by_cases hq : q = cid
      · subst hq
        rw [hl] at h
        have hc : c0 = c := by injection h
        subst hc
        refine ⟨{ c0 with name := some newName, updated_at := now }, ?_,
                ⟨[], (List.append_nil _).symm⟩, rfl, rfl, rfl⟩
        rw [lookupConv_updateConv_self, hl]
        rfl
      · rw [lookupConv_updateConv_ne s cid q _ hq]
        exact hrefl
  | listConvs pid limit => exact hrefl
  | historyQuery cid limit => exact hrefl
  | getOrCreate cid now => exact hrefl

/-- Claim C9: across any sequence of store operations (strict append,
rename, list, history query, get-or-create on an existing id), a
conversation's turn sequence is only ever extended at the end — every
previously appended turn keeps its position and content — and only the
display name and `updated_at` can change after creation. -/
theorem store_turns_append_only (ops : List StoreOp) (s : Store) (q : String)
    (c : Conversation) (h : lookupConv s q = some c) :
    ∃ c', lookupConv (applyOps s ops) q = some c' ∧
      (∃ t, c'.messages = c.messages ++ t) ∧
      c'.id = c.id ∧ c'.project_id = c.project_id ∧ c'.created_at = c.created_at := by
  induction ops generalizing s c with
  | nil => exact ⟨c, h, ⟨[], by simp⟩, rfl, rfl, rfl⟩
  | cons op rest ih =>
    obtain ⟨c1, h1, ⟨t1, ht1⟩, hid1, hpr1, hcr1⟩ := applyOp_extends op s q c h
    obtain ⟨c2, h2, ⟨t2, ht2⟩, hid2, hpr2, hcr2⟩ := ih (applyOp s op) c1 h1
    refine ⟨c2, h2, ⟨t1 ++ t2, ?_⟩, hid2.trans hid1, hpr2.trans hpr1, hcr2.trans hcr1⟩
    rw [ht2, ht1, List.append_assoc]

def convC9 : Conversation := ⟨"c1", none, none, [⟨"user", "hi", none, 1⟩], 1, 1⟩

def storeC9 : Store := [("c1", convC9)]

def opsC9 : List StoreOp :=
  [.addMsg "c1" "assistant" "hello" none 2,
   .renameConv "c1" "Greetings" 3,
   .historyQuery "c1" none,
   .getOrCreate "c1" 4]

/-- Witness for C9 at a concrete store and operation sequence. -/
theorem store_turns_append_only_witness :
    lookupConv storeC9 "c1" = some convC9 ∧
    (∃ c', lookupConv (applyOps storeC9 opsC9) "c1" = some c' ∧
      (∃ t, c'.messages = convC9.messages ++ t) ∧
      c'.id = convC9.id ∧ c'.project_id = convC9.project_id ∧
      c'.created_at = convC9.created_at) :=
  ⟨rfl, store_turns_append_only opsC9 storeC9 "c1" convC9 rfl⟩

/-- Claim C2 (amended part, `MemoryManager.add_message`): appending to an
unknown conversation id fails with the not-found error and leaves no state
behind — it does not fabricate a conversation. -/
theorem add_message_unknown_id_errors (s : Store) (cid role content : String)
    (toolCalls : Option (List (String × String))) (now : Nat)
    (h : lookupConv s cid = none) :
    addMessageM s cid role content toolCalls now =
      .error ("Conversation " ++ cid ++ " not found") := by
  unfold addMessageM
  rw [h]

/-- Witness for C2's theorem on a concrete store. -/
theorem add_message_unknown_id_errors_witness :
    lookupConv ([] : Store) "conv-404" = none ∧
    addMessageM [] "conv-404" "user" "hello" none 0 =
      .error ("Conversation " ++ "conv-404" ++ " not found") :=
  ⟨rfl, add_message_unknown_id_errors [] "conv-404" "user" "hello" none 0 rfl⟩

/-- Counterexample to C2 as stated: the other cited append operation,
`ConversationStore.add_message`, silently fabricates a conversation for an
unknown id — it creates an empty message list under the id and appends,
rather than failing. -/
theorem cs_add_message_fabricates :
    csLookup ([] : CStore) "conv-404" = none ∧
    csAddMessage [] "conv-404" "user" "hello" 7 =
      [("conv-404", [⟨"user", "hello", 7⟩])] ∧
    csLookup (csAddMessage [] "conv-404" "user" "hello" 7) "conv-404" =
      some [⟨"user", "hello", 7⟩] :=
  ⟨rfl, rfl, by decide⟩

/-- Claim C10: `get_conversation_history` with `limit=0` returns the full
message sequence (0 is falsy, treated like no limit), and any unknown
conversation id yields the empty sequence instead of an error. -/
theorem get_history_limit_zero_and_unknown (s : Store) (cid : String) :
    (∀ conv, lookupConv s cid = some conv →
      getConversationHistoryM s cid (some 0) = conv.messages) ∧
    (lookupConv s cid = none →
      ∀ limit, getConversationHistoryM s cid limit = []) := by
  constructor
  · intro conv h
    simp [getConversationHistoryM, h]
  · intro h limit
    simp [getConversationHistoryM, h]

def convC10 : Conversation :=
  ⟨"a", none, none, [⟨"user", "q", none, 1⟩, ⟨"assistant", "r", none, 2⟩], 1, 2⟩

def storeC10 : Store := [("a", convC10)]

/-- Witness for C10 on a concrete store: limit 0 returns both messages;
an unknown id returns `[]`. -/
theorem get_history_limit_zero_and_unknown_witness :
    (lookupConv storeC10 "a" = some convC10 ∧
      getConversationHistoryM storeC10 "a" (some 0) = convC10.messages) ∧
    (lookupConv storeC10 "zzz" = none ∧
      getConversationHistoryM storeC10 "zzz" (some 5) = []) :=
  ⟨⟨rfl, (get_history_limit_zero_and_unknown storeC10 "a").1 convC10 rfl⟩,
   ⟨rfl, (get_history_limit_zero_and_unknown storeC10 "zzz").2 rfl (some 5)⟩⟩

/-! Section: model_router.py — ModelRouter (claims C4, C5) -/

/-- The `context` dict as `select_best_model` / `_analyze_complexity` read
it: only `is_followup` (truthiness) and `intent` are accessed. -/
structure CtxInfo where
  is_followup : Bool
  intent : String
deriving DecidableEq, Repr

/-- A `{'provider': ..., 'model': ...}` routing result. -/
structure ModelConfig where
  provider : String
  model : String
deriving DecidableEq, Repr

/-- Embeds `ModelRouter._analyze_complexity`'s `simple_patterns`. -/
def simplePatterns : List String :=
  ["what is", "who is", "where is", "when", "define", "meaning of"]

/-- Embeds `ModelRouter._analyze_complexity`'s `complex_patterns`. -/
def complexPatterns : List String :=
  ["analyze", "compare", "evaluate", "design", "create", "develop",
   "explain why", "how does", "pros and cons", "advantages and disadvantages",
   "step by step", "best way to", "optimize"]

/-- Embeds `ModelRouter._analyze_complexity`: the word-count check
(`word_count < 8`) runs before the keyword lexicons, returning early. -/
def analyzeComplexity (question : String) (context : CtxInfo) : String :=
  let questionLower := pyStrip (strLower question)
  let wordCount := (pySplit question).length
  if wordCount < 8 then
    if context.is_followup then "medium" else "simple"
  else if complexPatterns.any (fun p => strContainsBool questionLower p) then "complex"
  else if simplePatterns.any (fun p => strContainsBool questionLower p) then "simple"
  else if 20 < wordCount then "complex"
  else if 1 < countQmarks question then "complex"
  else "medium"

/-- Embeds `ModelRouter._get_model_config`: the `model_map` lookup with the
`llama-3.3-70b-versatile` default for unknown names. -/
def getModelConfig (modelName : String) : ModelConfig :=
  if modelName = "llama-3.3-70b-versatile" then ⟨"groq", "llama-3.3-70b-versatile"⟩
  else if modelName = "gemini-1.5-flash" then ⟨"gemini", "gemini-1.5-flash"⟩
  else if modelName = "gpt-4" then ⟨"openai", "gpt-4-turbo-preview"⟩
  else ⟨"groq", "llama-3.3-70b-versatile"⟩

/-- The fall-through part of `ModelRouter.select_best_model` after the
user-preference check: language, follow-up/intent, question length and
complexity routing. -/
def selectBestModelCore (question language : String) (context : CtxInfo) : ModelConfig :=
  if ["hi-IN", "hindi", "ne-NP", "nepali"].contains language then
    ⟨"gemini", "gemini-2.5-flash"⟩
  else if context.is_followup || context.intent = "elaboration_request" then
    ⟨"gemini", "gemini-2.5-flash"⟩
  else if (pyStrip question).length < 25 then
    ⟨"gemini", "gemini-2.5-flash"⟩
  else
    let complexity := analyzeComplexity question context
    if complexity = "simple" then ⟨"groq", "llama-3.3-70b-versatile"⟩
    else if complexity = "medium" then ⟨"gemini", "gemini-2.5-flash"⟩
    else if complexity = "complex" then ⟨"gemini", "gemini-2.5-flash"⟩
    else ⟨"gemini", "gemini-1.5-flash"⟩

/-- Embeds `ModelRouter.select_best_model`: `if user_preference:` (truthy = not
`None` and not the empty string) returns `_get_model_config(user_preference)`
before any other rule runs. -/
def selectBestModel (question language : String) (context : CtxInfo)
    (userPref : Option String) : ModelConfig :=
  match userPref with
  | some p => if p = "" then selectBestModelCore question language context
              else getModelConfig p
  | none => selectBestModelCore question language context

/-- Counterexample to C4 as stated: `"compare Python and Go"` has 4 words,
so with `is_followup=false` the `word_count < 8` rule returns `"simple"`
before the complex-keyword lexicon is ever consulted — the classification
is not `"complex"`. -/
theorem analyze_complexity_compare_not_complex :
    analyzeComplexity "compare Python and Go" ⟨false, ""⟩ ≠ "complex" := by
  decide

/-- Claim C4 (amended): classifying `"compare Python and Go"` with
`is_followup=false` yields `"simple"`: the question has fewer than 8 words
and the word-count rule fires first, even though the question does contain
the `"compare"` keyword of the complex lexicon. -/
theorem analyze_complexity_compare_is_simple :
    analyzeComplexity "compare Python and Go" ⟨false, ""⟩ = "simple" ∧
    (pySplit "compare Python and Go").length < 8 ∧
    complexPatterns.any
      (fun p => strContainsBool (pyStrip (strLower "compare Python and Go")) p) = true := by
  refine ⟨by decide, by decide, by decide⟩

/-- Claim C5: an explicit (truthy) user model preference makes
`select_best_model` return `_get_model_config(user_preference)`, whatever
the question, language and context are — it overrides every other routing
rule. -/
theorem select_best_model_preference_wins (question language : String)
    (context : CtxInfo) (p : String) (hp : p ≠ "") :
    selectBestModel question language context (some p) = getModelConfig p := by
  simp [selectBestModel, hp]

/-- Witness for C5: even for a Nepali-language follow-up (which rules 2 and
3 would otherwise route to Gemini), the preference `"gpt-4"` wins. -/
theorem select_best_model_preference_wins_witness :
    ("gpt-4" : String) ≠ "" ∧
    selectBestModel "capital?" "ne-NP" ⟨true, "elaboration_request"⟩ (some "gpt-4") =
      getModelConfig "gpt-4" :=
  ⟨by decide, select_best_model_preference_wins "capital?" "ne-NP"
    ⟨true, "elaboration_request"⟩ "gpt-4" (by decide)⟩

/-! Section: context_resolver.py — ContextResolver (claim C1) -/

/-- Predicate `boundaryAfter l`: the position right before `l` is a word boundary on
its right side — `l` starts with a non-word character or is the end of the
string (regex `\b` after a word character). -/
def boundaryAfter (l : List Char) : Bool :=
  match l with
  | [] => true
  | c :: _ => !isWordCharB c

/-- Full-string match of the regex `^\w+\?*$`: one or more word characters
followed only by question marks.  (`\w+` is greedy and `\w`/`?` are
disjoint, so maximal-run matching is exact.) -/
def matchWordQs (l : List Char) : Bool :=
  let run := l.takeWhile isWordCharB
  !run.isEmpty && (l.dropWhile isWordCharB).all (fun c => c = '?')

/-- Full-string match of `qw ++ "\s*\?*$"` used after a question word:
optional whitespace then optional question marks, to the end. -/
def wsThenQs (l : List Char) : Bool :=
  (l.dropWhile isSpaceB).all (fun c => c = '?')

/-- Full-string match of the regex `^(what|where|when|who|why|how)\s*\?*$`
(re.search with both anchors). -/
def matchBareQuestionWord (s : String) : Bool :=
  ["what", "where", "when", "who", "why", "how"].any (fun w =>
    isPrefixB w.data s.data && wsThenQs (s.data.drop w.length))

/-- Prefix match of a leading word alternation followed by `\b`
(regexes `^(it|that|this|there|here)\b` and friends). -/
def startsWithWordOf (s : String) (ws : List String) : Bool :=
  ws.any (fun w => isPrefixB w.data s.data && boundaryAfter (s.data.drop w.length))

/-- Full-string match of the regex `^\w+\?$`: word characters then exactly
one question mark. -/
def matchWordOneQ (l : List Char) : Bool :=
  let run := l.takeWhile isWordCharB
  !run.isEmpty && l.dropWhile isWordCharB = ['?']

/-- Full-string match of the regex
`^(what|where|when|who|how|why)\s+\w+\s*\?*$` (question word, spaces, one
word, optional spaces, optional question marks).  All character classes
involved are disjoint, so greedy scanning is exact. -/
def matchQwordThenWord (s : String) : Bool :=
  ["what", "where", "when", "who", "how", "why"].any (fun w =>
    isPrefixB w.data s.data &&
    (let r1 := s.data.drop w.length
     !(r1.takeWhile isSpaceB).isEmpty &&
     (let r2 := r1.dropWhile isSpaceB
      !(r2.takeWhile isWordCharB).isEmpty &&
      wsThenQs (r2.dropWhile isWordCharB))))

/-- Embeds `ContextResolver._is_vague_question`: short questions with a `?`,
one/two-word questions, and the fixed `vague_patterns` regex list. -/
def isVagueQuestionCR (question : String) : Bool :=
  let qLower := pyStrip (strLower question)
  if qLower.length < 20 && strContainsBool question "?" then true
  else if (pySplit qLower).length ≤ 2 then true
  else if matchBareQuestionWord qLower then true
  else if startsWithWordOf qLower ["it", "that", "this", "there", "here"] then true
  else if startsWithWordOf qLower ["more", "tell me more", "continue", "yes", "yeah", "ok"] then true
  else if startsWithWordOf qLower ["about", "regarding"] then true
  else if matchWordOneQ qLower.data then true
  else false

/-- Embeds `ContextResolver._rewrite_with_context`: `context_subject` is
`topic or entities[0]` (Python truthiness), then the aggressive
pattern-based rewriting, first match wins. -/
def rewriteWithContext (question : String) (topic : Option String)
    (entities : List String) : String :=
  let qLower := pyStrip (strLower question)
  let contextSubject : Option String :=
    match topic with
    | some t => if t = "" then entities.head? else some t
    | none => entities.head?
  match contextSubject with
  | none => question
  | some cs =>
    if cs = "" then question
    else if matchWordQs qLower.data || (pySplit qLower).length = 1 then
      let word := pyStrip (rstripQmarks qLower)
      if ["mayor", "मेयर", "meyor"].contains word then
        "Who is the current mayor of " ++ cs ++
          "? What is their name and tell me about the mayor of " ++ cs ++ " city."
      else if ["population", "जनसंख्या"].contains word then
        "What is the population of " ++ cs ++ "?"
      else if ["history", "इतिहास"].contains word then
        "Tell me about the history of " ++ cs
      else if ["culture", "संस्कृति"].contains word then
        "Tell me about the culture of " ++ cs
      else
        "Tell me about the " ++ word ++ " of " ++ cs
    else if (pySplit qLower).length ≤ 3 && strContainsBool question "?" then
      rstripQmarks question ++ " of " ++ cs ++ "?"
    else if matchQwordThenWord qLower then
      rstripQmarks question ++ " in " ++ cs ++ "?"
    else if startsWithB qLower "what about" || startsWithB qLower "how about" then
      rstripQmarks question ++ " in " ++ cs ++ "?"
    else if qLower.length < 20 then
      pyStrip (rstripQmarks question) ++ " (specifically related to " ++ cs ++ ")?"
    else question

/-- Claim C1: `"mayor?"` is classified vague, and rewriting it with the
topic `"Kathmandu"` produces the mayor-template question, which contains
the literal substring `"Kathmandu"` and differs from the original
`"mayor?"`. -/
theorem rewrite_mayor_kathmandu :
    isVagueQuestionCR "mayor?" = true ∧
    rewriteWithContext "mayor?" (some "Kathmandu") [] =
      "Who is the current mayor of " ++ "Kathmandu" ++
        "? What is their name and tell me about the mayor of " ++ "Kathmandu" ++ " city." ∧
    strContainsBool (rewriteWithContext "mayor?" (some "Kathmandu") []) "Kathmandu" = true ∧
    rewriteWithContext "mayor?" (some "Kathmandu") [] ≠ "mayor?" :=
  ⟨by decide, by decide, by decide, by decide⟩

/-! Section: chatgpt_context.py — build_chatgpt_style_messages (claim C6) -/

/-- Splits a character list into maximal runs of word / non-word characters,
tagged `true` for word runs.  Used to evaluate the proper-noun regex
`\b[A-Z][a-z]+(?:\s+[A-Z][a-z]+)*\b` below: because `\b` forbids matches
starting or ending inside a word run, `re.findall` of that regex is
equivalent to grouping maximal word runs of shape `[A-Z][a-z]+` joined by
all-whitespace separators. -/
def lexAcc (curIsWord : Bool) (cur : List Char) : List Char → List (Bool × List Char)
  | [] => if cur.isEmpty then [] else [(curIsWord, cur.reverse)]
  | c :: rest =>
    if cur.isEmpty then lexAcc (isWordCharB c) [c] rest
    else if isWordCharB c = curIsWord then lexAcc curIsWord (c :: cur) rest
    else (curIsWord, cur.reverse) :: lexAcc (isWordCharB c) [c] rest

/-- A word run of the exact shape `[A-Z][a-z]+` (an uppercase letter and at
least one lowercase letter, nothing else). -/
def qualRunB : List Char → Bool
  | [] => false
  | c :: rest => isUpperAZ c && !rest.isEmpty && rest.all isLowerAZ

/-- Grouping pass for `re.findall(r'\b[A-Z][a-z]+(?:\s+[A-Z][a-z]+)*\b', s)`:
`acc` is the match currently being extended (if any); a qualifying run
joined to it by an all-whitespace separator extends it, anything else
closes it. -/
def groupRunsAux (acc : Option (List Char)) : List (Bool × List Char) → List (List Char)
  | [] => match acc with
          | some m => [m]
          | none => []
  | (true, run) :: rest =>
    match acc with
    | none =>
      if qualRunB run then groupRunsAux (some run) rest else groupRunsAux none rest
    | some m =>
      if qualRunB run then m :: groupRunsAux (some run) rest
      else m :: groupRunsAux none rest
  | (false, sep) :: (true, run2) :: rest2 =>
    match acc with
    | none =>
      if qualRunB run2 then groupRunsAux (some run2) rest2 else groupRunsAux none rest2
    | some m =>
      if sep.all isSpaceB && qualRunB run2 then
        groupRunsAux (some (m ++ sep ++ run2)) rest2
      else
        m :: (if qualRunB run2 then groupRunsAux (some run2) rest2
              else groupRunsAux none rest2)
  | (false, _) :: rest =>
    match acc with
    | none => groupRunsAux none rest
    | some m => m :: groupRunsAux none rest

/-- Evaluates `re.findall(r'\b[A-Z][a-z]+(?:\s+[A-Z][a-z]+)*\b', s)` — the
capitalized proper-noun extractor shared by `chatgpt_context.py` and
`context_resolver.py`. -/
def findProperRuns (s : String) : List String :=
  (groupRunsAux none (lexAcc false [] s.data)).map (fun l => ⟨l⟩)

/-- Evaluates `re.search(r'\b[A-Z][a-z]+', s)` as a Boolean: some word run starts
with an uppercase letter immediately followed by a lowercase one. -/
def hasCapAfterBoundary (prevWord : Bool) : List Char → Bool
  | a :: b :: rest =>
    (!prevWord && isUpperAZ a && isLowerAZ b) ||
      hasCapAfterBoundary (isWordCharB a) (b :: rest)
  | _ => false

/-- Evaluates `re.search(r'\b' + pat + r'\b', hay)` for a literal pattern `pat`
beginning and ending with word characters. -/
def boundedSubAux (prevWord : Bool) (pat : List Char) : List Char → Bool
  | [] => false
  | c :: rest =>
    (!prevWord && isPrefixB pat (c :: rest) && boundaryAfter ((c :: rest).drop pat.length)) ||
      boundedSubAux (isWordCharB c) pat rest

def boundedSub (hay pat : String) : Bool := boundedSubAux false pat.data hay.data

/-- An occurrence of literal `pat` whose right end sits on a word boundary
(`pat` followed by `\b`), anywhere in `hay`. -/
def occursWithEndB (pat : List Char) : List Char → Bool
  | [] => false
  | c :: rest =>
    (isPrefixB pat (c :: rest) && boundaryAfter ((c :: rest).drop pat.length)) ||
      occursWithEndB pat rest

/-- Evaluates `re.search(r'\b' + p1 + '.*' + p2 + r'\b', hay)`: a boundary-initial
occurrence of `p1` with an occurrence of `p2` (boundary-final) at or after
its end.  (`.` does not match a newline; the questions scanned are
single-line.) -/
def searchBdotBAux (prevWord : Bool) (p1 p2 : List Char) : List Char → Bool
  | [] => false
  | c :: rest =>
    (!prevWord && isPrefixB p1 (c :: rest) && occursWithEndB p2 ((c :: rest).drop p1.length)) ||
      searchBdotBAux (isWordCharB c) p1 p2 rest

def searchBdotB (hay p1 p2 : String) : Bool := searchBdotBAux false p1.data p2.data hay.data

/-- Embeds `chatgpt_context.is_asking_about_self`: the five personal-reference
regex patterns over the lowercased question. -/
def isAskingAboutSelf (question : String) : Bool :=
  let q := strLower question
  boundedSub q "who am i" ||
  searchBdotB q "what" "my name" ||
  searchBdotB q "who" "i" ||
  searchBdotB q "tell" "about me" ||
  boundedSub q "what do i"

/-- Embeds `chatgpt_context.is_vague_question`: single word, short (< 20 chars),
a ≤ 4-word question without a capitalized proper noun, or one of the
leading `vague` tokens. -/
def isVagueQuestionGPT (question : String) : Bool :=
  let q := strLower (pyStrip question)
  if (pySplit q).length = 1 then true
  else if q.length < 20 then true
  else if (pySplit q).length ≤ 4 && !hasCapAfterBoundary false question.data then true
  else if ["yes", "yeah", "ok", "more", "what about", "tell me", "and", "also"].any
            (fun v => startsWithB q v) then true
  else false

/-- Embeds `chatgpt_context.extract_personal_info`: scan user turns (lowercased)
for name / identity / occupation patterns; `None` when nothing was found. -/
def extractPersonalInfo (history : List ChatMsg) : Option String :=
  let parts := history.foldl (fun acc msg =>
    if msg.role ≠ "user" then acc
    else
      let content := strLower msg.content
      let acc1 :=
        if strContainsBool content "my name is" || strContainsBool content "i am" ||
           strContainsBool content "iam" then
          if strContainsBool content "my name is" then
            acc ++ ["name is " ++
              pyStrip (upToFirst "," (upToFirst "." (seg1 "my name is" content)))]
          else if strContainsBool content "i am" || strContainsBool content "iam" then
            let infoText := strReplace content "iam" "i am"
            acc ++ ["they are " ++
              pyStrip (upToFirst "," (upToFirst "." (seg1 "i am" infoText)))]
          else acc
        else acc
      if strContainsBool content "i work" || strContainsBool content "i study" then
        acc1 ++ [upToFirst "." content]
      else acc1) []
  match parts with
  | [] => none
  | _ => some (String.intercalate " | " parts)

/-- Embeds `chatgpt_context.extract_current_topic`: proper nouns (plus Devanagari
place names) from the last 4 messages, most recent qualifying one wins;
lowercase keyword fallback otherwise. -/
def extractCurrentTopic (history : List ChatMsg) : Option String :=
  match history with
  | [] => none
  | _ :: _ =>
    let recent := history.drop (history.length - 4)
    let topics := recent.foldl (fun acc msg =>
      let content := msg.content
      let acc1 := acc ++ findProperRuns content
      let acc2 :=
        if strContainsBool content "काठमाडौं" || strContainsBool content "काठमांडू" then
          acc1 ++ ["Kathmandu"] else acc1
      let acc3 := if strContainsBool content "नेपाल" then acc2 ++ ["Nepal"] else acc2
      if strContainsBool content "भारत" || strContainsBool content "इंडिया" then
        acc3 ++ ["India"] else acc3) []
    let stopwords : List String := ["I", "You", "The", "My", "Is", "Are", "FRIDAY", "Hello", "Hi"]
    let cleanTopics := topics.filter (fun t => !stopwords.contains t && 2 < t.length)
    match cleanTopics.getLast? with
    | some t => some t
    | none =>
      let allText := String.intercalate " " (recent.map (fun m => strLower m.content))
      if strContainsBool allText "kathmandu" || strContainsBool allText "काठमाडौं" then
        some "Kathmandu"
      else if strContainsBool allText "nepal" || strContainsBool allText "नेपाल" then
        some "Nepal"
      else if strContainsBool allText "python" then some "Python"
      else none

/-- Prefix match of the regex
`^(who|what|where|when|how|why)\s+(is|are|was|were)\s+\w+` (no end anchor). -/
def matchQwordIsWord (s : String) : Bool :=
  ["who", "what", "where", "when", "how", "why"].any (fun w =>
    isPrefixB w.data s.data &&
    (let r1 := s.data.drop w.length
     !(r1.takeWhile isSpaceB).isEmpty &&
     (let r2 := r1.dropWhile isSpaceB
      ["is", "are", "was", "were"].any (fun v =>
        isPrefixB v.data r2 &&
        (let r3 := r2.drop v.length
         !(r3.takeWhile isSpaceB).isEmpty &&
         !((r3.dropWhile isSpaceB).takeWhile isWordCharB).isEmpty)))))

/-- Embeds `chatgpt_context.rewrite_question_with_context`: the "nuclear option".
≤ 3-word questions get `" of {topic}?"` appended; short
question-word questions get `" in {topic}?"`; everything else is kept. -/
def rewriteQuestionWithContext (question topic : String) : String :=
  let qLower := pyStrip (strLower question)
  if (pySplit qLower).length ≤ 3 then
    rstripQmarks question ++ " of " ++ topic ++ "?"
  else if matchQwordIsWord qLower then
    if (pySplit question).length ≤ 4 then
      rstripQmarks question ++ " in " ++ topic ++ "?"
    else question
  else question

/-- Python truthiness of an `Optional[str]`. -/
def optStrTruthy : Option String → Bool
  | none => false
  | some s => s ≠ ""

/-- The `[PERSONAL INFO CONTEXT]` system injection of
`build_chatgpt_style_messages`. -/
def personalInjection (personalInfo userQuestion : String) : String :=
  "[PERSONAL INFO CONTEXT]\nThe user previously told you: " ++ personalInfo ++
  "\nTheir current question \"" ++ userQuestion ++
  "\" is asking about themselves.\nYou MUST answer using the information they gave you earlier.\nDO NOT say \"I don't know\" - you have the conversation history above!"

/-- The `[TOPIC CONTEXT]` system injection of
`build_chatgpt_style_messages`. -/
def topicInjection (topic userQuestion : String) : String :=
  "[TOPIC CONTEXT]\nCurrent conversation topic: " ++ topic ++
  "\nUser's next message \"" ++ userQuestion ++ "\" is asking about " ++ topic ++
  ".\nYou MUST answer about " ++ topic ++
  ", not in general.\nExample: If they ask \"mayor\", answer about the mayor OF " ++
  topic ++ "."

/-- The `CRITICAL MEMORY RULE` suffix appended to the system prompt by
`build_chatgpt_style_messages`. -/
def memoryRuleSuffix : String :=
  "\n\n🧠 CRITICAL MEMORY RULE:\n- You MUST remember EVERYTHING the user tells you in this conversation\n- If user says \"I am X\", you MUST remember X\n- If user asks \"who am I?\", answer with what they told you earlier\n- READ THE CONVERSATION HISTORY CAREFULLY before answering\n\nExample:\nUser: \"I am Dipesh\"\nYou: [acknowledge]\nUser: \"who am I?\"\nYou: ✅ \"You're Dipesh\" (from conversation history)\nYou: ❌ \"I don't know\" (WRONG - you have the history!)\n"

/-- Embeds `chatgpt_context.build_chatgpt_style_messages`.  Returns `none` for the
path where the source raises `NameError`: with fewer than 2 history
messages the local `topic` is never assigned, yet line 94 reads it whenever
`is_vague_question(user_question)` is true. -/
def buildChatgptStyleMessages (userQuestion : String) (history : List ChatMsg)
    (systemPrompt : String) : Option (List ChatMsg) :=
  let enhancedSystem := systemPrompt ++ memoryRuleSuffix
  let base := ⟨"system", enhancedSystem⟩ :: history.map (fun m => ⟨m.role, m.content⟩)
  if 2 ≤ history.length then
    let personalInfo := extractPersonalInfo history
    let base2 :=
      if optStrTruthy personalInfo && isAskingAboutSelf userQuestion then
        base ++ [⟨"system", personalInjection (personalInfo.getD "") userQuestion⟩]
      else base
    let topic := extractCurrentTopic history
    let base3 :=
      if isVagueQuestionGPT userQuestion && optStrTruthy topic then
        base2 ++ [⟨"system", topicInjection (topic.getD "") userQuestion⟩]
      else base2
    let finalQuestion :=
      if isVagueQuestionGPT userQuestion && optStrTruthy topic then
        rewriteQuestionWithContext userQuestion (topic.getD "")
      else userQuestion
    some (base3 ++ [⟨"user", finalQuestion⟩])
  else
    if isVagueQuestionGPT userQuestion then none
    else some (base ++ [⟨"user", userQuestion⟩])

/-- The C6 scenario history: the user said "My name is Dipesh" earlier in
the conversation. -/
def histC6 : List ChatMsg :=
  [⟨"user", "My name is Dipesh"⟩, ⟨"assistant", "Nice to meet you, Dipesh!"⟩]

set_option maxRecDepth 8192 in
/-- Counterexample to C6 as stated: asking `"who am I?"` after
`"My name is Dipesh"` DOES fall through to the generic topic-append
rewrite — the final user message sent to the model is the original
question with `" of Dipesh"` appended (`extract_current_topic` picks the
capitalized `"Dipesh"` as topic, `"who am I?"` is ≤ 3 words, and
`rewrite_question_with_context` runs unconditionally after the
personal-info injection). -/
theorem build_messages_who_am_i_topic_append :
    (buildChatgptStyleMessages "who am I?" histC6 "SYS").bind List.getLast? =
      some ⟨"user", rstripQmarks "who am I?" ++ " of " ++ "Dipesh" ++ "?"⟩ ∧
    extractCurrentTopic histC6 = some "Dipesh" ∧
    rstripQmarks "who am I?" ++ " of " ++ "Dipesh" ++ "?" = "who am I of Dipesh?" := by
  refine ⟨by decide, by decide, by decide⟩

set_option maxRecDepth 8192 in
/-- Claim C6 (amended): the resolver does produce a resolved form
referencing the recorded fact (`extract_personal_info` yields
`"name is dipesh"` and a `[PERSONAL INFO CONTEXT]` system message
containing it is injected), but it does not bypass the topic path: the
generic ≤ 3-word topic-append rewrite still fires, so the final user
message is `"who am I of Dipesh?"` with topic `"Dipesh"` appended. -/
theorem build_messages_who_am_i_personal_info :
    extractPersonalInfo histC6 = some "name is dipesh" ∧
    ((buildChatgptStyleMessages "who am I?" histC6 "SYS").getD []).any
      (fun m => m.role = "system" && strContainsBool m.content "name is dipesh") = true ∧
    (buildChatgptStyleMessages "who am I?" histC6 "SYS").bind List.getLast? =
      some ⟨"user", "who am I of Dipesh?"⟩ := by
  refine ⟨by decide, by decide, by decide⟩

/-! Section: auto_tool_caller.py — AutoToolCaller (claim C7) -/

/-- Tool-call argument values as the suggested `arguments` dicts hold them
(strings, ints, and the `None` placed under `content_search`). -/
inductive ArgV where
  | str (v : String)
  | nat (v : Nat)
  | nullV
deriving DecidableEq, Repr

/-- One suggested tool call
`{'tool': ..., 'operation': ..., 'arguments': ..., 'reason': ...}`. -/
structure ToolReq where
  tool : String
  operation : String
  arguments : List (String × ArgV)
  reason : String
deriving DecidableEq, Repr

/-- Embeds `AutoToolCaller._needs_web_search`'s `web_triggers` list. -/
def webTriggers : List String :=
  ["latest", "current", "recent", "today", "news", "now",
   "what is happening", "update", "this year", "2024", "2025",
   "price of", "cost of", "how much", "where to buy",
   "best", "top", "recommend", "comparison",
   "who is", "what is", "where is"]

/-- Prefix match of `re.match(r'^(what|who|where|when)\s+is\b', q)` (the
`IGNORECASE` flag is moot: the caller passes the lowercased question). -/
def matchLeadingQwordIs (s : String) : Bool :=
  ["what", "who", "where", "when"].any (fun w =>
    isPrefixB w.data s.data &&
    (let r1 := s.data.drop w.length
     !(r1.takeWhile isSpaceB).isEmpty &&
     (let r2 := r1.dropWhile isSpaceB
      isPrefixB ['i', 's'] r2 && boundaryAfter (r2.drop 2))))

/-- Embeds `AutoToolCaller._needs_web_search` (`question` is already lowercased by
the caller; the `context` argument is accepted but never read, as in the
source). -/
def needsWebSearch (question : String) (_context : List (String × String)) : Bool :=
  webTriggers.any (fun t => strContainsBool question t) ||
  ["mayor", "president", "ceo", "founder", "leader"].any
    (fun w => boundedSub question w) ||
  (matchLeadingQwordIs question &&
   !(["ai", "python", "programming", "computer"].any
       (fun c => strContainsBool question c)))

/-- Embeds `AutoToolCaller._is_weather_query`. -/
def isWeatherQuery (question : String) : Bool :=
  ["weather", "temperature", "rain", "forecast",
   "hot", "cold", "sunny", "cloudy", "climate"].any
    (fun k => strContainsBool question k)

/-- Embeds `AutoToolCaller._is_news_query`. -/
def isNewsQuery (question : String) : Bool :=
  ["news", "headlines", "latest news", "breaking",
   "happening", "updates", "current events"].any
    (fun k => strContainsBool question k)

/-- Embeds `AutoToolCaller._is_system_query`. -/
def isSystemQuery (question : String) : Bool :=
  ["cpu", "ram", "memory", "disk", "battery",
   "system status", "performance", "usage"].any
    (fun k => strContainsBool question k)

/-- Embeds `AutoToolCaller._is_file_query`. -/
def isFileQuery (question : String) : Bool :=
  ["file", "folder", "directory", "find file",
   "search file", "locate", "where is my"].any
    (fun k => strContainsBool question k)

/-- Embeds `AutoToolCaller._extract_city`: first of the `common_cities` contained
in the lowercased question, `str.title()`-cased. -/
def extractCity (question : String) : Option String :=
  (["bangalore", "delhi", "mumbai", "kathmandu", "london", "new york"].find?
    (fun city => strContainsBool (strLower question) city)).map pyTitle

/-- Embeds `AutoToolCaller._extract_news_topic`. -/
def extractNewsTopic (question : String) : String :=
  let ws := pySplit (strLower question)
  let stop : List String := ["news", "about", "on", "latest", "the", "a", "an"]
  let topicWords := ws.filter (fun w => !stop.contains w && 2 < w.length)
  match topicWords with
  | [] => question
  | _ => String.intercalate " " (topicWords.take 3)

/-- Evaluates `re.findall(r'\.(txt|pdf|doc|docx|xls|xlsx|py|js|html|css)', q, IGNORECASE)`,
first captured group: a dot followed by one of the extensions, the
alternatives tried in the listed order. -/
def scanFileExt : List Char → Option String
  | [] => none
  | c :: rest =>
    if c = '.' then
      match (["txt", "pdf", "doc", "docx", "xls", "xlsx", "py", "js", "html", "css"].find?
              (fun e => isPrefixB e.data (rest.map toLowerA))) with
      | some e => some ⟨rest.take e.length⟩
      | none => scanFileExt rest
    else scanFileExt rest

/-- Content up to the next quote character (either kind), `none` when the
rest of the string holds no quote. -/
def takeUntilQuote : List Char → Option (List Char)
  | [] => none
  | c :: rest =>
    if c = '"' || c = '\'' then some []
    else match takeUntilQuote rest with
         | some l => some (c :: l)
         | none => none

/-- Evaluates `re.findall(r'["\'](.*?)["\']', q)`, first captured group: the
shortest text between two quote characters. -/
def scanQuoted : List Char → Option String
  | [] => none
  | c :: rest =>
    if c = '"' || c = '\'' then
      match takeUntilQuote rest with
      | some content => some ⟨content⟩
      | none => scanQuoted rest
    else scanQuoted rest

/-- Embeds `AutoToolCaller._extract_file_pattern`: a `*`-prefixed extension, else
a quoted filename, else `"*"`. -/
def extractFilePattern (question : String) : String :=
  match scanFileExt question.data with
  | some e => "*" ++ e
  | none =>
    match scanQuoted question.data with
    | some f => f
    | none => "*"

/-- Embeds `AutoToolCaller.analyze_and_suggest_tools`: the five independent
triggers, checked in the fixed order web search → weather → news → system
→ file search, each contributing at most one suggestion.  The
`conversation_history` argument is accepted but never read, as in the
source. -/
def analyzeAndSuggestTools (question : String) (context : List (String × String))
    (_conversationHistory : List ChatMsg) : List ToolReq :=
  let qLower := strLower question
  (if needsWebSearch qLower context then
    [⟨"web_search", "web_search",
      [("query", .str question), ("provider", .str "duckduckgo"), ("max_results", .nat 5)],
      "Question requires current/factual information from the web"⟩]
   else []) ++
  (if isWeatherQuery qLower then
    let city := (extractCity question).getD "Bangalore"
    [⟨"weather_news", "weather",
      [("city", .str city), ("country", .str "IN")],
      "Weather information requested for " ++ city⟩]
   else []) ++
  (if isNewsQuery qLower then
    if strContainsBool qLower "about" || strContainsBool qLower "on" then
      let topic := extractNewsTopic question
      let topicOrQ := if topic = "" then question else topic
      [⟨"weather_news", "news_search",
        [("query", .str topicOrQ), ("max_results", .nat 5)],
        "News search for: " ++ topicOrQ⟩]
    else
      [⟨"weather_news", "news",
        [("country", .str "in"), ("category", .str "general")],
        "Latest news requested"⟩]
   else []) ++
  (if isSystemQuery qLower then
    [⟨"hardware_monitor", "all", [], "System information requested"⟩]
   else []) ++
  (if isFileQuery qLower then
    let pat := extractFilePattern question
    [⟨"file_operations", "search",
      [("path", .str "."), ("pattern", .str (if pat = "" then "*" else pat)),
       ("content_search", .nullV)],
      "File search for: " ++ (if pat = "" then "all files" else pat)⟩]
   else []) ++
  []

set_option maxRecDepth 8192 in
/-- Counterexample to C7 as stated: for `"what's the weather in Delhi"`
exactly one ToolRequest is suggested, but its `tool` field is
`"weather_news"` (the weather capability lives under operation
`"weather"`), not `"weather"`. -/
theorem suggest_weather_delhi_tool_name :
    (analyzeAndSuggestTools "what's the weather in Delhi" [] []).map ToolReq.tool =
      ["weather_news"] ∧
    ("weather_news" : String) ≠ "weather" := by
  refine ⟨by decide, by decide⟩

set_option maxRecDepth 8192 in
/-- Claim C7 (amended): for `"what's the weather in Delhi"` the suggester
returns exactly one ToolRequest — `tool="weather_news"`,
`operation="weather"`, with city argument `"Delhi"` (which contains
`"Delhi"` case-insensitively) — and no other trigger fires. -/
theorem suggest_weather_delhi_exact :
    analyzeAndSuggestTools "what's the weather in Delhi" [] [] =
      [⟨"weather_news", "weather",
        [("city", .str "Delhi"), ("country", .str "IN")],
        "Weather information requested for Delhi"⟩] ∧
    strContainsBool (strLower "Delhi") (strLower "Delhi") = true := by
  refine ⟨by decide, by decide⟩

/-! Section: api/chat.py — stream_generator event skeleton (claim C8)

The streamed-event structure of `stream_generator` on its normal
(no-exception) path, with the externally paced parts as parameters: the
pre-executed tool results, the chunk sequence produced by
`llm_engine.stream_chat`, and whether follow-up suggestions were generated.
Persistence, learning and logging yield no events and are abstracted away;
tool execution results are abstracted to the tool name carried by the
chunk. -/

/-- One chunk from `llm_engine.stream_chat` as the `async for` loop reads
it: `chunk.get("type")` is `token`, `tool_call` or `error`; any other type
falls through all branches and yields nothing. -/
inductive UpChunk where
  | token (content : String)
  | toolCall (data : String)
  | errorC (content : String)
  | other (t : String)
deriving DecidableEq, Repr

/-- One server-sent `StreamChunk` event (`models/schemas.py` limits `type`
to token / tool_call / tool_result / followups / error / done). -/
inductive Ev where
  | token (content : String)
  | toolCall (data : String)
  | toolResult (data : String)
  | followupsEv
  | errorEv (content : String)
  | done
deriving DecidableEq, Repr

/-- The `async for chunk in llm_engine.stream_chat(...)` loop body:
tokens are forwarded; a tool call yields the call notification and then its
result; an `error` chunk yields an error event and `break`s out of the
loop — after which control still falls through to the code below the
loop. -/
def processChunks : List UpChunk → List Ev
  | [] => []
  | .token s :: rest => .token s :: processChunks rest
  | .toolCall d :: rest => .toolCall d :: .toolResult d :: processChunks rest
  | .errorC m :: _ => [.errorEv m]
  | .other _ :: rest => processChunks rest

/-- The event sequence emitted by one `stream_generator` run that raises no
exception: pre-executed tool results first, then the model-stream loop,
then the optional `followups` event, then the unconditional final
`done` event. -/
def streamGeneratorEvents (preToolResults : List String) (upstream : List UpChunk)
    (followups : Bool) : List Ev :=
  preToolResults.map Ev.toolResult ++ processChunks upstream ++
    (if followups then [Ev.followupsEv] else []) ++ [Ev.done]

/-- Counterexample to C8 as stated: when the upstream model stream yields
an `error` chunk, the generator emits the error event, breaks out of the
loop — and then still runs the post-loop code, emitting a `done` event
after the `error`.  The stream contains both an `error` event and a
subsequent `done`. -/
theorem stream_error_then_done :
    streamGeneratorEvents [] [.errorC "boom"] false = [.errorEv "boom", .done] ∧
    (streamGeneratorEvents [] [.errorC "boom"] false).getLast? = some .done ∧
    Ev.errorEv "boom" ∈ streamGeneratorEvents [] [.errorC "boom"] false := by
  refine ⟨by decide, by decide, by decide⟩

theorem processChunks_no_done (upstream : List UpChunk) :
    (processChunks upstream).count Ev.done = 0 := by
  induction upstream with
  | nil => rfl
  | cons c rest ih =>
    cases c with
    | token s => simpa [processChunks] using ih
    | toolCall d => simpa [processChunks] using ih
    | errorC m => simp [processChunks]
    | other t => simpa [processChunks] using ih

/-- Claim C8 (amended): on the no-exception path every event stream is
non-empty and terminated by exactly one `done` event; an upstream error
chunk yields an `error` event that precedes the terminal `done` rather
than replacing it (the exception path instead ends the stream with a
single trailing `error` event). -/
theorem stream_terminated_by_one_done (preToolResults : List String)
    (upstream : List UpChunk) (followups : Bool) :
    streamGeneratorEvents preToolResults upstream followups ≠ [] ∧
    (streamGeneratorEvents preToolResults upstream followups).getLast? = some .done ∧
    (streamGeneratorEvents preToolResults upstream followups).count Ev.done = 1 := by
  refine ⟨?_, ?_, ?_⟩
  · simp [streamGeneratorEvents]
  · simp [streamGeneratorEvents]
  · have h1 : (preToolResults.map Ev.toolResult).count Ev.done = 0 := by
      rw [List.count_eq_zero]
      intro hmem
      obtain ⟨x, _, hx⟩ := List.mem_map.mp hmem
      cases hx
    have h2 := processChunks_no_done upstream
    have h3 : ((if followups then [Ev.followupsEv] else []) : List Ev).count Ev.done = 0 := by
      cases followups <;> simp
    simp [streamGeneratorEvents, List.count_append, h1, h2, h3]
